import Mathlib

/-!
Verification of the Freezer self-extracting bundle builder (`src/freezer.py`).

The development shallowly embeds the builder: bytes are `List Nat` (each
element a byte value), machine integers are `Nat` with explicit `% 2 ^ w`,
paths are component lists under a small model of Windows `pathlib`
semantics, the staged payload tree is a flat association list from
relative path components to entries, and fallible build steps return
`Except String` (the `BuildError` channel of the source, carrying the
message text).
-/

set_option maxHeartbeats 1000000

namespace Freezer

/-! ## Byte-level constants and helpers (freezer.py lines 33-36, 286-296) -/

/-- Source: `MARKER = b"PREFIXSFX1"` as byte values. -/
def MARKER_STR : String := "PREFIXSFX1"

/-- The marker literal as bytes. -/
def MARKER : List Nat := MARKER_STR.data.map Char.toNat

/-- Source: `FOOTER_LEN = len(MARKER) + 8 + 32` (length field + SHA256 + marker). -/
def FOOTER_LEN : Nat := MARKER.length + 8 + 32

/-- Source: `MANIFEST_NAME = "__main_path.txt"`. -/
def MANIFEST_NAME : String := "__main_path.txt"

/-- `struct.pack("<Q", n)`: the 8-byte little-endian encoding of an
unsigned 64-bit integer (the source value always fits, being a file
length). -/
def packLE64 (n : Nat) : List Nat :=
  (List.range 8).map (fun i => n / 256 ^ i % 256)

/-! ## SHA-256 (the `hashlib.sha256` call in `assemble_exe`), FIPS 180-4 -/

/-- 32-bit right rotation, input below `2 ^ 32`. -/
def rotr32 (k x : Nat) : Nat := (x >>> k) ||| (x <<< (32 - k)) % 2 ^ 32

/-- 32-bit modular addition. -/
def add32 (a b : Nat) : Nat := (a + b) % 2 ^ 32

def xor3 (a b c : Nat) : Nat := a ^^^ b ^^^ c

def smallSigma0 (x : Nat) : Nat := xor3 (rotr32 7 x) (rotr32 18 x) (x >>> 3)

def smallSigma1 (x : Nat) : Nat := xor3 (rotr32 17 x) (rotr32 19 x) (x >>> 10)

def bigSigma0 (x : Nat) : Nat := xor3 (rotr32 2 x) (rotr32 13 x) (rotr32 22 x)

def bigSigma1 (x : Nat) : Nat := xor3 (rotr32 6 x) (rotr32 11 x) (rotr32 25 x)

def chOp (e f g : Nat) : Nat := (e &&& f) ^^^ ((e ^^^ (2 ^ 32 - 1)) &&& g)

def majOp (a b c : Nat) : Nat := (a &&& b) ^^^ (a &&& c) ^^^ (b &&& c)

/-- The 64 round constants of SHA-256 (FIPS 180-4 section 4.2.2, in
decimal). -/
def K256 : List Nat :=
  [1116352408, 1899447441, 3049323471, 3921009573, 961987163, 1508970993,
   2453635748, 2870763221, 3624381080, 310598401, 607225278, 1426881987,
   1925078388, 2162078206, 2614888103, 3248222580, 3835390401, 4022224774,
   264347078, 604807628, 770255983, 1249150122, 1555081692, 1996064986,
   2554220882, 2821834349, 2952996808, 3210313671, 3336571891, 3584528711,
   113926993, 338241895, 666307205, 773529912, 1294757372, 1396182291,
   1695183700, 1986661051, 2177026350, 2456956037, 2730485921, 2820302411,
   3259730800, 3345764771, 3516065817, 3600352804, 4094571909, 275423344,
   430227734, 506948616, 659060556, 883997877, 958139571, 1322822218,
   1537002063, 1747873779, 1955562222, 2024104815, 2227730452, 2361852424,
   2428436474, 2756734187, 3204031479, 3329325298]

/-- Big-endian 4-byte serialization of a 32-bit word. -/
def be32 (x : Nat) : List Nat :=
  [x / 2 ^ 24 % 256, x / 2 ^ 16 % 256, x / 2 ^ 8 % 256, x % 256]

/-- Big-endian 8-byte serialization of a 64-bit value (the length field of
the SHA-256 padding). -/
def be64 (n : Nat) : List Nat :=
  [n / 2 ^ 56 % 256, n / 2 ^ 48 % 256, n / 2 ^ 40 % 256, n / 2 ^ 32 % 256,
   n / 2 ^ 24 % 256, n / 2 ^ 16 % 256, n / 2 ^ 8 % 256, n % 256]

/-- SHA-256 padding: append `0x80`, zero bytes, and the 8-byte big-endian
bit length, reaching a multiple of 64 bytes. -/
def padMessage (msg : List Nat) : List Nat :=
  msg ++ [128] ++ List.replicate ((64 - (msg.length + 9) % 64) % 64) 0 ++ be64 (8 * msg.length)

/-- The 64-byte block at index `i`. -/
def blockAt (l : List Nat) (i : Nat) : List Nat := (l.drop (64 * i)).take 64

/-- The `j`-th big-endian 32-bit word of a 64-byte block. -/
def wordAt (blk : List Nat) (j : Nat) : Nat :=
  blk.getD (4 * j) 0 * 2 ^ 24 + blk.getD (4 * j + 1) 0 * 2 ^ 16 +
    blk.getD (4 * j + 2) 0 * 2 ^ 8 + blk.getD (4 * j + 3) 0

/-- Message schedule: the first 16 words come from the block, 48 more are
derived. -/
def schedule (blk : List Nat) : List Nat :=
  (List.range 48).foldl
    (fun w _ =>
      let n := w.length
      w ++ [add32 (add32 (smallSigma1 (w.getD (n - 2) 0)) (w.getD (n - 7) 0))
              (add32 (smallSigma0 (w.getD (n - 15) 0)) (w.getD (n - 16) 0))])
    ((List.range 16).map (wordAt blk))

/-- The eight 32-bit working variables of SHA-256. -/
structure Hash8 where
  a : Nat
  b : Nat
  c : Nat
  d : Nat
  e : Nat
  f : Nat
  g : Nat
  h : Nat
deriving DecidableEq

/-- One SHA-256 round, consuming one `(k, w)` pair. -/
def roundStep (st : Hash8) (kw : Nat × Nat) : Hash8 :=
  let t1 := add32 st.h (add32 (bigSigma1 st.e) (add32 (chOp st.e st.f st.g) (add32 kw.1 kw.2)))
  let t2 := add32 (bigSigma0 st.a) (majOp st.a st.b st.c)
  ⟨add32 t1 t2, st.a, st.b, st.c, add32 st.d t1, st.e, st.f, st.g⟩

/-- Compress one 64-byte block into the running hash. -/
def compressBlock (st : Hash8) (blk : List Nat) : Hash8 :=
  let fin := ((K256.zip (schedule blk)).foldl roundStep st)
  ⟨add32 st.a fin.a, add32 st.b fin.b, add32 st.c fin.c, add32 st.d fin.d,
   add32 st.e fin.e, add32 st.f fin.f, add32 st.g fin.g, add32 st.h fin.h⟩

/-- The SHA-256 initial hash value (FIPS 180-4 section 5.3.3, in
decimal). -/
def initHash : Hash8 :=
  ⟨1779033703, 3144134277, 1013904242, 2773480762,
   1359893119, 2600822924, 528734635, 1541459225⟩

/-- Serialize the final hash state as 32 bytes. -/
def hashOut (v : Hash8) : List Nat :=
  be32 v.a ++ be32 v.b ++ be32 v.c ++ be32 v.d ++ be32 v.e ++ be32 v.f ++ be32 v.g ++ be32 v.h

/-- `hashlib.sha256(msg).digest()` as a byte list. -/
def sha256 (msg : List Nat) : List Nat :=
  let p := padMessage msg
  hashOut ((List.range (p.length / 64)).foldl (fun st i => compressBlock st (blockAt p i)) initHash)

/-- Source `assemble_exe` (lines 286-296): the output file is the stub
bytes, the payload bytes, the packed payload length, the SHA-256 digest of
the payload, and the marker, concatenated in that order. -/
def assemble_exe (stub payload : List Nat) : List Nat :=
  stub ++ payload ++ packLE64 payload.length ++ sha256 payload ++ MARKER

lemma hashOut_length (v : Hash8) : (hashOut v).length = 32 := by
  simp [hashOut, be32]

lemma sha256_length (msg : List Nat) : (sha256 msg).length = 32 :=
  hashOut_length _

lemma packLE64_length (n : Nat) : (packLE64 n).length = 8 := by
  simp [packLE64]

lemma MARKER_length : MARKER.length = 10 := by decide

lemma drop_len_append {α : Type} (xs ys : List α) : (xs ++ ys).drop xs.length = ys := by
  induction xs with
  | nil => rfl
  | cons a t ih => simp [ih]

lemma drop_marker {α : Type} (xs ys : List α) :
    (xs ++ ys).drop ((xs ++ ys).length - ys.length) = ys := by
  have h : (xs ++ ys).length - ys.length = xs.length := by simp [List.length_append]
  rw [h]
  exact drop_len_append xs ys

/-! ## Windows path model

The builder refuses to run unless `os.name == "nt"` (`ensure_windows`), so
all `pathlib` operations below follow `PureWindowsPath` semantics: `/` and
`\` both separate components, `str()` renders with `\`, empty and `.`
components are dropped while `..` components are kept literally, a path
may carry a drive (a letter followed by `:`) and may be rooted (a leading
separator after the drive), and joining follows the drive/root replacement
rules of `pathlib` (checked against CPython `PureWindowsPath`: a rooted
right operand replaces the root but keeps the left drive, a right operand
with a different drive replaces everything, a drive-relative right operand
with the same drive appends). UNC server shares are not modelled. -/

/-- A parsed path: its drive (`""` when none, else a letter and `:`),
whether it is rooted, and its components. -/
structure WPath where
  drive : String
  rooted : Bool
  parts : List String
deriving DecidableEq

def isSep (c : Char) : Bool := c == '/' || c == '\\'

/-- Split a character list at separator characters. -/
def splitSeps : List Char → List (List Char)
  | [] => [[]]
  | c :: rest =>
      let r := splitSeps rest
      if isSep c then [] :: r
      else
        match r with
        | [] => [[c]]
        | h :: t => (c :: h) :: t

/-- Parse a path string the way `PureWindowsPath` does: a leading
`letter:` is the drive, a separator after it makes the path rooted, empty
and `.` components are dropped, `..` components are kept. -/
def parsePath (s : String) : WPath :=
  let driveTail : String × List Char :=
    match s.data with
    | c1 :: c2 :: rest => if c1.isAlpha && c2 = ':' then (String.mk [c1, c2], rest) else ("", s.data)
    | _ => ("", s.data)
  ⟨driveTail.1,
   (match driveTail.2 with
    | [] => false
    | c :: _ => isSep c),
   ((splitSeps driveTail.2).map String.mk).filter (fun seg => !(seg == "") && !(seg == "."))⟩

/-- `pathlib` join `p / q` (`PureWindowsPath` semantics): a right operand
with a different drive, or with a drive and a root, replaces the left
entirely; a same-drive relative right operand appends; a rooted driveless
right operand keeps the left drive and replaces the rest; a plain
relative right operand appends. -/
def pjoin (p q : WPath) : WPath :=
  if q.drive ≠ "" then
    if q.rooted then q
    else if q.drive = p.drive then ⟨p.drive, p.rooted, p.parts ++ q.parts⟩
    else q
  else if q.rooted then ⟨p.drive, true, q.parts⟩
  else ⟨p.drive, p.rooted, p.parts ++ q.parts⟩

/-- Lexical resolution of `..` components, as the OS applies when a path
is used: `..` pops the previous component (at the root it stays at the
root). -/
def normParts : List String → List String → List String
  | acc, [] => acc
  | acc, c :: rest =>
      if c = ".." then normParts acc.dropLast rest else normParts (acc ++ [c]) rest

def resolveFrom (p : WPath) : WPath := ⟨p.drive, p.rooted, normParts [] p.parts⟩

/-- `p` lies at or below `root` (component-wise, same drive and root). -/
def contained (root p : WPath) : Bool :=
  (root.drive == p.drive) && (root.rooted == p.rooted) && root.parts.isPrefixOf p.parts

/-- Containment after resolving `..` components on both sides. -/
def containedResolved (root p : WPath) : Bool :=
  contained (resolveFrom root) (resolveFrom p)

/-- Python `str.strip` (whitespace at both ends). -/
def isSpace (c : Char) : Bool := c == ' ' || c == '\t' || c == '\n' || c == '\r'

def trimChars (l : List Char) : List Char :=
  ((l.dropWhile isSpace).reverse.dropWhile isSpace).reverse

def trimStr (s : String) : String := String.mk (trimChars s.data)

/-- `dest_rel.strip() or "."` as it appears in `copy_main` and
`parse_mapping`. -/
def stripOrDot (s : String) : String :=
  if trimStr s = "" then "." else trimStr s

/-- Join a component list with a separator string (used for `str()` of a
relative path and for zip member names). -/
def joinSep (sep : String) : List String → String
  | [] => ""
  | [x] => x
  | x :: xs => x ++ sep ++ joinSep sep xs

/-- `str()` of a relative `WindowsPath`: backslash-separated. -/
def renderRel (parts : List String) : String := joinSep "\\" parts

/-- Zip member names: `zipfile` replaces the OS separator with `/`. -/
def renderSlash (parts : List String) : String := joinSep "/" parts

/-- `Path.relative_to`, lexical: succeeds when `root` has the same drive
and root and is a component prefix, else raises `ValueError` (modelled as
`none`). -/
def relative_to (p root : WPath) : Option (List String) :=
  if (root.drive == p.drive) && (root.rooted == p.rooted) && root.parts.isPrefixOf p.parts then
    some (p.parts.drop root.parts.length)
  else none

/-! ## Target-path computations of the copy helpers (lines 121-156, 180-182) -/

/-- `copy_main` lines 122-123: `target_dir = payload_root if dest_rel == "."
else payload_root / dest_rel`. -/
def copy_main_target_dir (root : WPath) (destRel : String) : WPath :=
  let d := stripOrDot destRel
  if d = "." then root else pjoin root (parsePath d)

/-- `copy_main` line 125: `target_path = target_dir / main_path.name`. -/
def copy_main_target (root : WPath) (destRel mainName : String) : WPath :=
  let td := copy_main_target_dir root destRel
  ⟨td.drive, td.rooted, td.parts ++ [mainName]⟩

/-- `copy_main` line 127: `str(target_path.relative_to(payload_root))`. -/
def copy_main_rel (mainName destRel : String) (root : WPath) : Option String :=
  (relative_to (copy_main_target root destRel mainName) root).map renderRel

/-- `write_manifest` line 182: the manifest text is the relative path plus
one newline. -/
def manifest_text (relPath : String) : String := relPath ++ "\n"

/-- `copy_includes` lines 137-139: target of one included file (the
destination string has already been stripped by `parse_mapping`). -/
def include_target (root : WPath) (destRel srcName : String) : WPath :=
  let td := if destRel = "." then root else pjoin root (parsePath destRel)
  ⟨td.drive, td.rooted, td.parts ++ [srcName]⟩

/-- `copy_include_folders` lines 151-154: target directory of one included
folder. -/
def folder_target (root : WPath) (srcName destRel : String) : WPath :=
  if destRel = "." then ⟨root.drive, root.rooted, root.parts ++ [srcName]⟩
  else pjoin root (parsePath destRel)

/-- `write_manifest` line 181: `manifest_path = payload_root / MANIFEST_NAME`. -/
def manifest_path (root : WPath) : WPath :=
  ⟨root.drive, root.rooted, root.parts ++ [MANIFEST_NAME]⟩

/-! ## Payload tree model

The staged payload directory is a flat association list from a path
(components relative to `payload_root`) to an entry. Binary files copied
with `shutil.copy2` carry bytes, files written with `write_text` carry a
string, and directories are recorded as `dir` entries. Writing replaces
any previous entry at the same path (the copy helpers overwrite). -/

inductive Entry where
  | file (bytes : List Nat)
  | text (s : String)
  | dir
deriving DecidableEq

abbrev FS := List (List String × Entry)

/-- Create or overwrite the entry at path `p`. -/
def fsWrite (fs : FS) (p : List String) (e : Entry) : FS :=
  fs.filter (fun kv => !(kv.1 == p)) ++ [(p, e)]

/-- Look up the entry at path `p`. -/
def fsGet (fs : FS) (p : List String) : Option Entry :=
  (fs.find? (fun kv => kv.1 == p)).map (fun kv => kv.2)

/-- An entry is a regular file (`Path.is_file`). -/
def isFileE : Entry → Bool
  | Entry.dir => false
  | _ => true

/-! ## `copy_pre_runtime` (lines 159-177)

The function validates that `prefix.exe` exists and is a file, then walks
`sorted(runtime_dir.iterdir())` and copies every top-level entry into the
payload root, skipping the names `.git` and `.gitignore`. A top-level
entry is either a file with bytes or a directory with its files listed by
relative path. The source iterates in sorted name order; since sibling
names are unique the resulting tree does not depend on that order, and the
fold below keeps the given order. -/

inductive RtEntry where
  | file (bytes : List Nat)
  | dir (files : List (List String × List Nat))
deriving DecidableEq

/-- The payload entry a top-level runtime entry lands as. -/
def topEntry : RtEntry → Entry
  | RtEntry.file c => Entry.file c
  | RtEntry.dir _ => Entry.dir

/-- Copy one runtime entry: `shutil.copy2` for files, `shutil.copytree`
(dir entry plus contained files) for directories. -/
def copyRuntimeEntry (fs : FS) (name : String) (e : RtEntry) : FS :=
  match e with
  | RtEntry.file c => fsWrite fs [name] (Entry.file c)
  | RtEntry.dir files =>
      fsWrite (files.foldl (fun a kv => fsWrite a (name :: kv.1) (Entry.file kv.2)) fs)
        [name] Entry.dir

/-- The copy loop of `copy_pre_runtime` (lines 166-177). -/
def copyRuntimeEntries (entries : List (String × RtEntry)) (fs : FS) : FS :=
  entries.foldl
    (fun a kv => if kv.1 = ".git" ∨ kv.1 = ".gitignore" then a else copyRuntimeEntry a kv.1 kv.2)
    fs

/-- `copy_pre_runtime` (lines 159-177): `pre_exe.exists()` and
`pre_exe.is_file()` are the only validations; on success every top-level
entry of the runtime directory is copied, minus the skipped names. -/
def copy_pre_runtime (preExePresent preExeIsFile : Bool) (preExeResolved : String)
    (entries : List (String × RtEntry)) (fs : FS) : Except String FS :=
  if preExePresent && preExeIsFile then
    Except.ok (copyRuntimeEntries entries fs)
  else
    Except.error ("prefix.exe not found: " ++ preExeResolved)

/-! ## `parse_mapping` and the include helpers (lines 110-156)

A mapping string is `source;dest_in_exe`. The filesystem surrounding one
source string is summarised by a `SrcInfo` record: the resolved path text
(`Path(src).expanduser().resolve()`), `Path.name`, the `exists`/`is_file`/
`is_dir` answers, and the contents (bytes for a file, files by relative
path for a directory). -/

structure SrcInfo where
  resolved : String
  name : String
  present : Bool
  isFile : Bool
  isDir : Bool
  fileContent : List Nat
  dirFiles : List (List String × List Nat)
deriving DecidableEq, Inhabited

/-- Split a character list at the first `;` (Python `raw.split(";", 1)`);
`none` when there is no `;`. -/
def splitFirstSemi : List Char → Option (List Char × List Char)
  | [] => none
  | c :: rest =>
      if c = ';' then some ([], rest)
      else (splitFirstSemi rest).map (fun pr => (c :: pr.1, pr.2))

/-- `parse_mapping` (lines 110-118). The Python message quotes the raw
string with `repr`; the model keeps the message prefix and appends the raw
text. -/
def parse_mapping (env : String → SrcInfo) (raw : String) : Except String (SrcInfo × String) :=
  match splitFirstSemi raw.data with
  | none => Except.error ("Mapping must be of form source;dest_in_exe: " ++ raw)
  | some pr =>
      let src := env (String.mk pr.1)
      if src.present then
        Except.ok (src, stripOrDot (String.mk pr.2))
      else
        Except.error ("Included path does not exist: " ++ src.resolved)

/-- An error escaping one of the copy helpers or `build`. `buildError` is
a raised `BuildError`, the one category `__main__` catches; `uncaught` is
the `ValueError` raised by the `Path.relative_to` calls that the log
f-strings at lines 127, 140 and 155 evaluate eagerly (regardless of
verbosity) when the target left the payload root — or, on some systems,
an `OSError` from the `mkdir` just before it — which nothing catches. -/
inductive BErr where
  | buildError (msg : String)
  | uncaught
deriving DecidableEq

/-- `copy_includes` (lines 130-141): parse, check `is_file`, `mkdir` the
target directory, then the log f-string evaluates
`target_path.relative_to(payload_root)` (line 140) — an uncaught
`ValueError` when the destination was rooted or drive-qualified — and
only then `copy2` writes the file. -/
def copy_includes (env : String → SrcInfo) (root : WPath) (includes : List String) (fs : FS) :
    Except BErr FS :=
  includes.foldlM
    (fun a raw =>
      match parse_mapping env raw with
      | Except.error e => Except.error (BErr.buildError e)
      | Except.ok sd =>
          if sd.1.isFile then
            match relative_to (include_target root sd.2 sd.1.name) root with
            | none => Except.error BErr.uncaught
            | some rel => Except.ok (fsWrite a rel (Entry.file sd.1.fileContent))
          else
            Except.error (BErr.buildError ("Included file is not a file: " ++ sd.1.resolved)))
    fs

/-- `shutil.copytree(src, target_dir, dirs_exist_ok=True)`: the target
directory entry is created (or kept) and every file of the source is
written at its relative path under the target, overwriting existing
files. -/
def copytree (files : List (List String × List Nat)) (targetDir : List String) (fs : FS) : FS :=
  files.foldl (fun a kv => fsWrite a (targetDir ++ kv.1) (Entry.file kv.2))
    (fsWrite fs targetDir Entry.dir)

/-- `copy_include_folders` (lines 144-156): parse, check `is_dir`, then
the log f-string evaluates `target_dir.relative_to(payload_root)`
(line 155) — an uncaught `ValueError` when the destination was rooted or
drive-qualified — and only then `copytree` runs. -/
def copy_include_folders (env : String → SrcInfo) (root : WPath) (folders : List String)
    (fs : FS) : Except BErr FS :=
  folders.foldlM
    (fun a raw =>
      match parse_mapping env raw with
      | Except.error e => Except.error (BErr.buildError e)
      | Except.ok sd =>
          if sd.1.isDir then
            match relative_to (folder_target root sd.1.name sd.2) root with
            | none => Except.error BErr.uncaught
            | some rel => Except.ok (copytree sd.1.dirFiles rel a)
          else
            Except.error (BErr.buildError ("Included folder is not a directory: " ++
              sd.1.resolved)))
    fs

/-! ## `build_payload_zip` (lines 185-191)

`rglob("*")` yields every entry under the payload root; directories are
skipped, and each file is stored under its relative path, which `zipfile`
renders with forward slashes. A member is the pair of its archive name and
its entry. -/

def build_payload_zip (fs : FS) : List (String × Entry) :=
  fs.filterMap (fun kv => if isFileE kv.2 then some (renderSlash kv.1, kv.2) else none)

/-- A deterministic byte serialization of the member list, standing in for
the zip container format (an external library; its exact bytes play no
role in any claim). -/
def zipSerialize (members : List (String × Entry)) : List Nat :=
  members.foldr
    (fun m acc =>
      [m.1.length] ++ m.1.data.map Char.toNat ++
        (match m.2 with
         | Entry.file c => 0 :: c
         | Entry.text s => 1 :: s.data.map Char.toNat
         | Entry.dir => [2]) ++ acc)
    []

/-! ## The `.prex` pointer step (lines 340-368)

Inside `build`, after the main script is copied, a `try` block either
copies the first existing pointer file among `main_file.parent / ".prex"`
and `main_file.with_suffix(".prex")` to the bundle root, or, when neither
exists, generates one listing the `.py` files under the bundled `ext/`
directory (skipped when there are none); `except OSError: pass` swallows
any failure. -/

structure PointerEnv where
  osFailure : Bool
  dirPrexPresent : Bool
  dirPrexContent : List Nat
  progPrexPresent : Bool
  progPrexContent : List Nat
deriving DecidableEq

/-- `Path.suffix == ".py"`: the name ends in `.py` and is not exactly
`.py` (a leading dot alone is not a suffix in `pathlib`). -/
def pyName (name : String) : Bool :=
  (".py".data.isSuffixOf name.data) && !(name == ".py")

def extPyName (kv : List String × Entry) : Option String :=
  match kv with
  | ([d, name], e) => if d = "ext" ∧ isFileE e = true ∧ pyName name = true then some name else none
  | _ => none

/-- The `.py` files directly under `payload_root / "ext"`, when that
directory exists. The source lists them in sorted name order; the
generated text below follows the list order of the model (names are
unique, and no claim depends on the order). -/
def extPyFiles (fs : FS) : List String :=
  if fsGet fs ["ext"] = some Entry.dir then fs.filterMap extPyName else []

/-- The generated pointer text: one `str(Path("ext") / name)` line per
extension, newline-terminated. -/
def prexText (names : List String) : String :=
  joinSep "\n" (names.map (fun n => "ext\\" ++ n)) ++ "\n"

/-- The body of the `try` block: `Except.error` marks an `OSError`. -/
def pointer_step (pe : PointerEnv) (fs : FS) : Except Unit FS :=
  if pe.osFailure then Except.error ()
  else
    Except.ok
      (if pe.dirPrexPresent then fsWrite fs [".prex"] (Entry.file pe.dirPrexContent)
       else if pe.progPrexPresent then fsWrite fs [".prex"] (Entry.file pe.progPrexContent)
       else
         match extPyFiles fs with
         | [] => fs
         | names => fsWrite fs [".prex"] (Entry.text (prexText names)))

/-- The `try ... except OSError: pass` wrapper. -/
def apply_pointer (pe : PointerEnv) (fs : FS) : FS :=
  match pointer_step pe fs with
  | Except.ok fs2 => fs2
  | Except.error _ => fs

/-! ## `build` (lines 299-391) and the `__main__` guard (lines 394-399)

`Env` summarises everything `build` observes outside its arguments: the
OS check, the `PATH` search for `prefix.exe`, the resolved main script,
the runtime directory listing, the mapping sources, the pointer-file
surroundings, and the results of the external `csc.exe` steps (stub
compilation and optional icon conversion), which are out-of-scope
collaborators that either yield bytes or a `BuildError` message. -/

structure BuildArgs where
  preExe : Option String
  mainFile : String
  includes : List String
  includeFolders : List String
  mainDest : String
  output : Option String
  icon : Option String

structure Env where
  isWindows : Bool
  pathPrefixExe : Option String
  preExePresent : Bool
  preExeIsFile : Bool
  preExeResolved : String
  runtimeEntries : List (String × RtEntry)
  mainPresent : Bool
  mainIsFile : Bool
  mainResolved : String
  mainName : String
  mainContent : List Nat
  payloadRoot : WPath
  srcInfo : String → SrcInfo
  pointer : PointerEnv
  iconResult : Except String Unit
  stubResult : Except String (List Nat)

/-- Lines 303-313: use the given `pre_exe` or fall back to `shutil.which`. -/
def resolvePreExe (env : Env) (args : BuildArgs) : Except String String :=
  match args.preExe with
  | some p => Except.ok p
  | none =>
      match env.pathPrefixExe with
      | some f => Except.ok f
      | none =>
          Except.error
            "prefix.exe not provided and not found on PATH; provide its path or install prefix."

/-- `copy_main` at the tree level (lines 121-127): `mkdir` and `copy2`
place the script, then line 127 evaluates
`target_path.relative_to(payload_root)` — an uncaught `ValueError` when
the destination was rooted or drive-qualified (the temp tree, copied file
included, is then discarded, so the model reports only the error) — and
returns the rendered relative path. -/
def copy_main_fs (root : WPath) (mainName : String) (mainContent : List Nat)
    (destRel : String) (fs : FS) : Except BErr (FS × String) :=
  match relative_to (copy_main_target root destRel mainName) root with
  | none => Except.error BErr.uncaught
  | some rel => Except.ok (fsWrite fs rel (Entry.file mainContent), renderRel rel)

/-- The stages of `build` after the folder copies (lines 378-389):
manifest, archive, optional icon conversion, stub compilation, final
assembly. Split out of `build` only to keep terms small in proofs. -/
def buildFinal (env : Env) (args : BuildArgs) (fs5 : FS) (mainRel : String) :
    Except BErr (List Nat) :=
  let fs6 := fsWrite fs5 [MANIFEST_NAME] (Entry.text (manifest_text mainRel))
  let payload := zipSerialize (build_payload_zip fs6)
  match (match args.icon with
         | none => Except.ok ()
         | some _ => env.iconResult) with
  | Except.error e => Except.error (BErr.buildError e)
  | Except.ok _ =>
      match env.stubResult with
      | Except.error e => Except.error (BErr.buildError e)
      | Except.ok stub => Except.ok (assemble_exe stub payload)

/-- The folder-copy stage of `build` (lines 374-376). -/
def buildFolders (env : Env) (args : BuildArgs) (fs4 : FS) (mainRel : String) :
    Except BErr (List Nat) :=
  match copy_include_folders env.srcInfo env.payloadRoot args.includeFolders fs4 with
  | Except.error b => Except.error b
  | Except.ok fs5 => buildFinal env args fs5 mainRel

/-- The include-copy stage of `build` and everything after it
(lines 370-389). -/
def buildTail (env : Env) (args : BuildArgs) (fs3 : FS) (mainRel : String) :
    Except BErr (List Nat) :=
  match copy_includes env.srcInfo env.payloadRoot args.includes fs3 with
  | Except.error b => Except.error b
  | Except.ok fs4 => buildFolders env args fs4 mainRel

/-- The main-script copy, pointer step and everything after them
(lines 330-389). -/
def buildMain (env : Env) (args : BuildArgs) (fs1 : FS) : Except BErr (List Nat) :=
  match copy_main_fs env.payloadRoot env.mainName env.mainContent args.mainDest fs1 with
  | Except.error b => Except.error b
  | Except.ok fsMain => buildTail env args (apply_pointer env.pointer fsMain.1) fsMain.2

/-- `build` (lines 299-391): the stages in source order; a `BuildError`
or an uncaught exception aborts, and the final executable bytes exist
only on success (the output file is opened only inside `assemble_exe`). -/
def build (env : Env) (args : BuildArgs) : Except BErr (List Nat) :=
  if !env.isWindows then Except.error (BErr.buildError "This builder only supports Windows 10+.")
  else
    match resolvePreExe env args with
    | Except.error e => Except.error (BErr.buildError e)
    | Except.ok _ =>
        if !(env.mainPresent && env.mainIsFile) then
          Except.error (BErr.buildError ("Main script not found: " ++ env.mainResolved))
        else
          match copy_pre_runtime env.preExePresent env.preExeIsFile env.preExeResolved
              env.runtimeEntries [] with
          | Except.error e => Except.error (BErr.buildError e)
          | Except.ok fs1 => buildMain env args fs1

/-- The `__main__` guard (lines 394-399): exit code, the produced output
file (none on error), and the `Error:` stderr line. Only `BuildError` is
caught and reported; an uncaught exception still exits with status 1 (the
interpreter prints a traceback, never the `Error:` line) and produces no
output file. -/
def main_entry (env : Env) (args : BuildArgs) : Nat × Option (List Nat) × Option String :=
  match build env args with
  | Except.ok bytes => (0, some bytes, none)
  | Except.error (BErr.buildError e) => (1, none, some ("Error: " ++ e))
  | Except.error BErr.uncaught => (1, none, none)

/-! ## Claim C1: layout written by `assemble_exe` -/

/-- C1: for every launcher binary, archive byte string and output path,
`assemble_exe` writes exactly the launcher bytes, the archive bytes, the
8-byte little-endian payload length, the 32-byte SHA-256 digest of the
archive bytes, and the marker literal, in that order, so the trailing
bytes of the file equal the marker constant regardless of the launcher
size. -/
theorem assemble_exe_layout (stub payload : List Nat) :
    assemble_exe stub payload =
      stub ++ payload ++ packLE64 payload.length ++ sha256 payload ++ MARKER ∧
    (packLE64 payload.length).length = 8 ∧
    (sha256 payload).length = 32 ∧
    (assemble_exe stub payload).drop ((assemble_exe stub payload).length - MARKER.length) =
      MARKER := by
  refine ⟨rfl, packLE64_length _, sha256_length _, ?_⟩
  have h := drop_marker (stub ++ payload ++ packLE64 payload.length ++ sha256 payload) MARKER
  simpa [assemble_exe, List.append_assoc] using h

/-! ## Claim C3: footer versions -/

/-- C3 counterexample: the builder has a single marker value and a single
footer shape. `FOOTER_LEN` always includes the 32 digest bytes, and at the
concrete input (empty stub, payload `[97]`) the assembled output is the
digest-bearing footer and differs from the minimal `length ++ marker`
footer, so no bundle of the minimal version is ever produced. -/
theorem footer_single_version_cex :
    FOOTER_LEN = 8 + 32 + MARKER.length ∧
    assemble_exe [] [97] = [97] ++ packLE64 1 ++ sha256 [97] ++ MARKER ∧
    assemble_exe [] [97] ≠ [97] ++ packLE64 1 ++ MARKER := by
  refine ⟨by decide, rfl, ?_⟩
  intro h
  have hl := congrArg List.length h
  simp [assemble_exe, List.length_append, sha256_length, packLE64_length, MARKER_length] at hl

/-- C3 amended: the bundler supports exactly one footer version, the
extended one: every assembled executable ends with a footer of constant
length `FOOTER_LEN = 50` holding the payload length, the 32-byte SHA-256
digest and the single marker value `PREFIXSFX1`; no digest-free footer is
produced. -/
theorem footer_always_extended (stub payload : List Nat) :
    assemble_exe stub payload =
      (stub ++ payload) ++ (packLE64 payload.length ++ sha256 payload ++ MARKER) ∧
    (packLE64 payload.length ++ sha256 payload ++ MARKER).length = FOOTER_LEN ∧
    FOOTER_LEN = 50 ∧ MARKER = MARKER_STR.data.map Char.toNat := by
  refine ⟨by simp [assemble_exe], ?_, by decide, rfl⟩
  simp [List.length_append, packLE64_length, sha256_length, MARKER_length, FOOTER_LEN]

/-! ## Claim C5: manifest contents -/

lemma isPrefixOf_append_self (l m : List String) : l.isPrefixOf (l ++ m) = true := by
  induction l with
  | nil => simp [List.isPrefixOf]
  | cons a t ih => simp [List.isPrefixOf, ih]

lemma relative_to_append (root : WPath) (extra : List String) :
    relative_to ⟨root.drive, root.rooted, root.parts ++ extra⟩ root = some extra := by
  simp [relative_to, isPrefixOf_append_self, drop_len_append]

/-- C5 counterexample: with entry script `main.x` and destination
`scripts`, the recorded tree-relative path is `scripts\main.x` (the
Windows separator), not the forward-slash `scripts/main.x` the claim
states. -/
theorem manifest_sep_cex :
    copy_main_rel "main.x" "scripts" ⟨"C:", true, ["Temp", "payload"]⟩ =
      some "scripts\\main.x" ∧
    manifest_text "scripts\\main.x" ≠ manifest_text "scripts/main.x" := by
  constructor
  · decide
  · decide

/-- C5 amended: the manifest body is the tree-relative path of the entry
script followed by one newline; with destination `.` it is `main.x`, and
with destination `scripts` it is `scripts\main.x` — separated by the
backslash of Windows paths, not by a forward slash. -/
theorem manifest_relpath (root : WPath) (mainName : String) :
    (copy_main_rel mainName "." root).map manifest_text = some (mainName ++ "\n") ∧
    (copy_main_rel mainName "scripts" root).map manifest_text =
      some ("scripts\\" ++ mainName ++ "\n") := by
  have hdot : stripOrDot "." = "." := by decide
  have hscripts : stripOrDot "scripts" = "scripts" := by decide
  have hps : parsePath "scripts" = ⟨"", false, ["scripts"]⟩ := by decide
  constructor
  · have h1 : copy_main_target root "." mainName =
        ⟨root.drive, root.rooted, root.parts ++ [mainName]⟩ := by
      simp [copy_main_target, copy_main_target_dir, hdot]
    rw [copy_main_rel, h1, relative_to_append]
    simp [renderRel, joinSep, manifest_text]
  · have h2 : copy_main_target root "scripts" mainName =
        ⟨root.drive, root.rooted, root.parts ++ ["scripts", mainName]⟩ := by
      simp [copy_main_target, copy_main_target_dir, hscripts, hps, pjoin]
    rw [copy_main_rel, h2, relative_to_append]
    simp [renderRel, joinSep, manifest_text]

/-! ## Claim C2: containment of payload paths -/

lemma normParts_no_dotdot (l acc : List String) (h : ∀ c ∈ l, c ≠ "..") :
    normParts acc l = acc ++ l := by
  induction l generalizing acc with
  | nil => simp [normParts]
  | cons c rest ih =>
      have hc : c ≠ ".." := h c (by simp)
      simp [normParts, hc, ih _ (fun x hx => h x (by simp [hx]))]

lemma contained_of_no_dotdot (root : WPath) (extra : List String)
    (hroot : ∀ c ∈ root.parts, c ≠ "..") (hextra : ∀ c ∈ extra, c ≠ "..") :
    containedResolved root ⟨root.drive, root.rooted, root.parts ++ extra⟩ = true := by
  have hall : ∀ c ∈ root.parts ++ extra, c ≠ ".." := by
    intro c hc
    rcases List.mem_append.mp hc with h1 | h2
    · exact hroot c h1
    · exact hextra c h2
  simp [containedResolved, contained, resolveFrom, normParts_no_dotdot _ _ hroot,
    normParts_no_dotdot _ _ hall, isPrefixOf_append_self]

/-- C2 counterexample: the builder performs no sanitisation of
destination strings. With payload root `C:\Temp\payload`, the destination
`..` places the main script outside the payload root, a rooted
destination `\evil` places an included file under `C:\evil`, and a
drive-qualified destination `D:evil` leaves the payload drive
entirely. -/
theorem path_escape_cex :
    containedResolved ⟨"C:", true, ["Temp", "payload"]⟩
      (copy_main_target ⟨"C:", true, ["Temp", "payload"]⟩ ".." "main.x") = false ∧
    containedResolved ⟨"C:", true, ["Temp", "payload"]⟩
      (include_target ⟨"C:", true, ["Temp", "payload"]⟩ "\\evil" "a.txt") = false ∧
    containedResolved ⟨"C:", true, ["Temp", "payload"]⟩
      (include_target ⟨"C:", true, ["Temp", "payload"]⟩ "D:evil" "a.txt") = false := by
  refine ⟨?_, ?_, ?_⟩
  · decide
  · decide
  · decide

/-- C2 amended: every path the bundler writes (copied main script,
included file, included folder, manifest) stays inside the payload root
provided the destination string, once stripped, parses to a relative
path — no drive qualifier, not rooted — with no `..` component and the
involved file names are not `..`; destination strings with `..`, rooted
or drive-qualified components can escape the root (see the
counterexample). -/
theorem payload_paths_contained (root : WPath) (destRel srcName mainName : String)
    (hroot : ".." ∉ root.parts)
    (hddrive : (parsePath (stripOrDot destRel)).drive = "")
    (hdanch : (parsePath (stripOrDot destRel)).rooted = false)
    (hdparts : ".." ∉ (parsePath (stripOrDot destRel)).parts)
    (hm : mainName ≠ "..") (hs : srcName ≠ "..") :
    containedResolved root (copy_main_target root destRel mainName) = true ∧
    containedResolved root (include_target root (stripOrDot destRel) srcName) = true ∧
    containedResolved root (folder_target root srcName (stripOrDot destRel)) = true ∧
    containedResolved root (manifest_path root) = true := by
  have hroot' : ∀ c ∈ root.parts, c ≠ ".." := fun c hc he => hroot (he ▸ hc)
  have hd' : ∀ c ∈ (parsePath (stripOrDot destRel)).parts, c ≠ ".." :=
    fun c hc he => hdparts (he ▸ hc)
  have hm' : ∀ c ∈ [mainName], c ≠ ".." := by
    intro c hc
    simp only [List.mem_singleton] at hc
    exact hc ▸ hm
  have hs' : ∀ c ∈ [srcName], c ≠ ".." := by
    intro c hc
    simp only [List.mem_singleton] at hc
    exact hc ▸ hs
  have hds : ∀ (nm : String), nm ≠ ".." →
      ∀ c ∈ (parsePath (stripOrDot destRel)).parts ++ [nm], c ≠ ".." := by
    intro nm hnm c hc
    rcases List.mem_append.mp hc with h1 | h2
    · exact hd' c h1
    · simp only [List.mem_singleton] at h2
      exact h2 ▸ hnm
  refine ⟨?_, ?_, ?_, ?_⟩
  · by_cases h : stripOrDot destRel = "."
    · have ht : copy_main_target root destRel mainName =
          ⟨root.drive, root.rooted, root.parts ++ [mainName]⟩ := by
        simp [copy_main_target, copy_main_target_dir, h]
      rw [ht]
      exact contained_of_no_dotdot root _ hroot' hm'
    · have ht : copy_main_target root destRel mainName =
          ⟨root.drive, root.rooted,
            root.parts ++ ((parsePath (stripOrDot destRel)).parts ++ [mainName])⟩ := by
        simp [copy_main_target, copy_main_target_dir, h, pjoin, hddrive, hdanch,
          List.append_assoc]
      rw [ht]
      exact contained_of_no_dotdot root _ hroot' (hds mainName hm)
  · by_cases h : stripOrDot destRel = "."
    · have ht : include_target root (stripOrDot destRel) srcName =
          ⟨root.drive, root.rooted, root.parts ++ [srcName]⟩ := by
        simp [include_target, h]
      rw [ht]
      exact contained_of_no_dotdot root _ hroot' hs'
    · have ht : include_target root (stripOrDot destRel) srcName =
          ⟨root.drive, root.rooted,
            root.parts ++ ((parsePath (stripOrDot destRel)).parts ++ [srcName])⟩ := by
        simp [include_target, h, pjoin, hddrive, hdanch, List.append_assoc]
      rw [ht]
      exact contained_of_no_dotdot root _ hroot' (hds srcName hs)
  · by_cases h : stripOrDot destRel = "."
    · have ht : folder_target root srcName (stripOrDot destRel) =
          ⟨root.drive, root.rooted, root.parts ++ [srcName]⟩ := by
        simp [folder_target, h]
      rw [ht]
      exact contained_of_no_dotdot root _ hroot' hs'
    · have ht : folder_target root srcName (stripOrDot destRel) =
          ⟨root.drive, root.rooted, root.parts ++ (parsePath (stripOrDot destRel)).parts⟩ := by
        simp [folder_target, h, pjoin, hddrive, hdanch]
      rw [ht]
      exact contained_of_no_dotdot root _ hroot' hd'
  · have ht : manifest_path root = ⟨root.drive, root.rooted, root.parts ++ [MANIFEST_NAME]⟩ := rfl
    rw [ht]
    refine contained_of_no_dotdot root _ hroot' ?_
    intro c hc
    simp only [List.mem_singleton] at hc
    subst hc
    decide

/-- C2 witness: the amended containment theorem evaluated at the payload
root `\Users\payload`, destination `scripts`, included file `lib.x` and
main script `main.x`. -/
theorem payload_paths_contained_witness :
    containedResolved ⟨"C:", true, ["Users", "payload"]⟩
      (copy_main_target ⟨"C:", true, ["Users", "payload"]⟩ "scripts" "main.x") = true ∧
    containedResolved ⟨"C:", true, ["Users", "payload"]⟩
      (include_target ⟨"C:", true, ["Users", "payload"]⟩ (stripOrDot "scripts") "lib.x") = true ∧
    containedResolved ⟨"C:", true, ["Users", "payload"]⟩
      (folder_target ⟨"C:", true, ["Users", "payload"]⟩ "lib.x" (stripOrDot "scripts")) = true ∧
    containedResolved ⟨"C:", true, ["Users", "payload"]⟩
      (manifest_path ⟨"C:", true, ["Users", "payload"]⟩) = true :=
  payload_paths_contained ⟨"C:", true, ["Users", "payload"]⟩ "scripts" "lib.x" "main.x"
    (by decide) (by decide) (by decide) (by decide) (by decide) (by decide)

/-! ## Association-list lemmas for the payload tree -/

lemma fsGet_fsWrite (fs : FS) (p q : List String) (e : Entry) :
    fsGet (fsWrite fs p e) q = if q = p then some e else fsGet fs q := by
  induction fs with
  | nil =>
      by_cases h : q = p
      · simp [fsGet, fsWrite, List.find?, h]
      · have hb : (p == q) = false := beq_eq_false_iff_ne.mpr fun hh => h hh.symm
        simp [fsGet, fsWrite, List.find?, h, hb]
  | cons kv rest ih =>
      by_cases hkp : kv.1 = p
      · have hw : fsWrite (kv :: rest) p e = fsWrite rest p e := by
          simp [fsWrite, List.filter_cons, hkp]
        rw [hw, ih]
        by_cases hqp : q = p
        · simp [hqp]
        · have hb : (kv.1 == q) = false := beq_eq_false_iff_ne.mpr fun hh => hqp (hh.symm.trans hkp)
          simp [hqp, fsGet, List.find?, hb]
      · have hw : fsWrite (kv :: rest) p e = kv :: fsWrite rest p e := by
          simp [fsWrite, List.filter_cons, hkp]
        rw [hw]
        by_cases hkq : kv.1 = q
        · have hqp : ¬(q = p) := fun hh => hkp (hkq.trans hh)
          have hb : (kv.1 == q) = true := beq_iff_eq.mpr hkq
          simp [fsGet, List.find?, hb, hqp]
        · have hb : (kv.1 == q) = false := beq_eq_false_iff_ne.mpr hkq
          have lhs : fsGet (kv :: fsWrite rest p e) q = fsGet (fsWrite rest p e) q := by
            simp [fsGet, List.find?, hb]
          have rhs : fsGet (kv :: rest) q = fsGet rest q := by
            simp [fsGet, List.find?, hb]
          rw [lhs, ih, rhs]

lemma fsGet_foldl_fsWrite_ne {γ : Type} (L : List γ) (key : γ → List String) (val : γ → Entry)
    (fs : FS) (q : List String) (h : ∀ x ∈ L, key x ≠ q) :
    fsGet (L.foldl (fun a x => fsWrite a (key x) (val x)) fs) q = fsGet fs q := by
  induction L generalizing fs with
  | nil => rfl
  | cons x rest ih =>
      rw [List.foldl_cons, ih _ (fun y hy => h y (List.mem_cons_of_mem _ hy)), fsGet_fsWrite,
        if_neg (fun hh => h x (List.mem_cons_self x rest) hh.symm)]

lemma fsGet_foldl_fsWrite_last {γ : Type} (L1 L2 : List γ) (x : γ) (key : γ → List String)
    (val : γ → Entry) (fs : FS) (h2 : ∀ y ∈ L2, key y ≠ key x) :
    fsGet ((L1 ++ x :: L2).foldl (fun a y => fsWrite a (key y) (val y)) fs) (key x) =
      some (val x) := by
  rw [List.foldl_append, List.foldl_cons, fsGet_foldl_fsWrite_ne L2 key val _ _ h2,
    fsGet_fsWrite, if_pos rfl]

/-! ## Claims C4 and C9: `copy_pre_runtime` -/

lemma fsGet_copyRuntimeEntry_self (fs : FS) (name : String) (e : RtEntry) :
    fsGet (copyRuntimeEntry fs name e) [name] = some (topEntry e) := by
  cases e with
  | file c => simp [copyRuntimeEntry, topEntry, fsGet_fsWrite]
  | dir files => simp [copyRuntimeEntry, topEntry, fsGet_fsWrite]

lemma fsGet_copyRuntimeEntry_ne (fs : FS) (name : String) (e : RtEntry) (m : String)
    (h : name ≠ m) : fsGet (copyRuntimeEntry fs name e) [m] = fsGet fs [m] := by
  have hm : ¬([m] = [name]) := by
    simp only [List.cons.injEq, and_true]
    exact fun hh => h hh.symm
  cases e with
  | file c => simp [copyRuntimeEntry, fsGet_fsWrite, hm]
  | dir files =>
      rw [copyRuntimeEntry, fsGet_fsWrite, if_neg hm]
      refine fsGet_foldl_fsWrite_ne files (fun kv => name :: kv.1) (fun kv => Entry.file kv.2)
        fs [m] ?_
      intro kv _ hh
      injection hh with h1 _
      exact h h1

lemma copyRuntimeEntries_get_notmem (entries : List (String × RtEntry)) (fs : FS) (m : String)
    (h : m ∉ entries.map Prod.fst) :
    fsGet (copyRuntimeEntries entries fs) [m] = fsGet fs [m] := by
  induction entries generalizing fs with
  | nil => rfl
  | cons kv rest ih =>
      have hne : kv.1 ≠ m := fun hh => h (by simp [hh])
      have hrest : m ∉ rest.map Prod.fst := fun hh => h (by simp [hh])
      rw [copyRuntimeEntries, List.foldl_cons]
      by_cases hskip : kv.1 = ".git" ∨ kv.1 = ".gitignore"
      · rw [if_pos hskip]
        exact ih fs hrest
      · rw [if_neg hskip]
        rw [show (List.foldl
            (fun a kv => if kv.1 = ".git" ∨ kv.1 = ".gitignore" then a
              else copyRuntimeEntry a kv.1 kv.2) (copyRuntimeEntry fs kv.1 kv.2) rest) =
            copyRuntimeEntries rest (copyRuntimeEntry fs kv.1 kv.2) from rfl]
        rw [ih _ hrest]
        exact fsGet_copyRuntimeEntry_ne fs kv.1 kv.2 m hne

lemma copyRuntimeEntries_get_skipname (entries : List (String × RtEntry)) (fs : FS) (m : String)
    (hm : m = ".git" ∨ m = ".gitignore") :
    fsGet (copyRuntimeEntries entries fs) [m] = fsGet fs [m] := by
  induction entries generalizing fs with
  | nil => rfl
  | cons kv rest ih =>
      rw [copyRuntimeEntries, List.foldl_cons]
      by_cases hskip : kv.1 = ".git" ∨ kv.1 = ".gitignore"
      · rw [if_pos hskip]
        exact ih fs
      · rw [if_neg hskip]
        rw [show (List.foldl
            (fun a kv => if kv.1 = ".git" ∨ kv.1 = ".gitignore" then a
              else copyRuntimeEntry a kv.1 kv.2) (copyRuntimeEntry fs kv.1 kv.2) rest) =
            copyRuntimeEntries rest (copyRuntimeEntry fs kv.1 kv.2) from rfl]
        rw [ih]
        refine fsGet_copyRuntimeEntry_ne fs kv.1 kv.2 m ?_
        intro hh
        exact hskip (hh ▸ hm)

lemma copyRuntimeEntries_get_mem (entries : List (String × RtEntry)) (fs : FS)
    (n : String) (e : RtEntry) (hmem : (n, e) ∈ entries)
    (hnd : (entries.map Prod.fst).Nodup) (hn : ¬(n = ".git" ∨ n = ".gitignore")) :
    fsGet (copyRuntimeEntries entries fs) [n] = some (topEntry e) := by
  induction entries generalizing fs with
  | nil => cases hmem
  | cons kv rest ih =>
      rw [copyRuntimeEntries, List.foldl_cons]
      rcases List.mem_cons.mp hmem with hhead | htail
      · subst hhead
        rw [if_neg hn]
        rw [show (List.foldl
            (fun a kv => if kv.1 = ".git" ∨ kv.1 = ".gitignore" then a
              else copyRuntimeEntry a kv.1 kv.2) (copyRuntimeEntry fs n e) rest) =
            copyRuntimeEntries rest (copyRuntimeEntry fs n e) from rfl]
        have hnotrest : n ∉ rest.map Prod.fst := by
          have := hnd
          simp only [List.map_cons, List.nodup_cons] at this
          exact this.1
        rw [copyRuntimeEntries_get_notmem rest _ n hnotrest]
        exact fsGet_copyRuntimeEntry_self fs n e
      · have hndrest : (rest.map Prod.fst).Nodup := by
          simp only [List.map_cons, List.nodup_cons] at hnd
          exact hnd.2
        by_cases hskip : kv.1 = ".git" ∨ kv.1 = ".gitignore"
        · rw [if_pos hskip]
          exact ih fs htail hndrest
        · rw [if_neg hskip]
          rw [show (List.foldl
              (fun a kv => if kv.1 = ".git" ∨ kv.1 = ".gitignore" then a
                else copyRuntimeEntry a kv.1 kv.2) (copyRuntimeEntry fs kv.1 kv.2) rest) =
              copyRuntimeEntries rest (copyRuntimeEntry fs kv.1 kv.2) from rfl]
          exact ih _ htail hndrest

/-- C4 counterexample: with the runtime binary present but no support
directory at all in the runtime source location (the listing holds only
`prefix.exe`, no `lib` entry), `copy_pre_runtime` succeeds instead of
failing with a build error. -/
theorem copy_pre_runtime_no_support_check_cex :
    (copy_pre_runtime true true "C:\\pre\\prefix.exe"
        [("prefix.exe", RtEntry.file [77])] []).isOk = true ∧
    ([("prefix.exe", RtEntry.file [77])] : List (String × RtEntry)).all
      (fun kv => !(kv.1 == "lib")) = true := by
  constructor
  · rfl
  · rfl

/-- C4 amended: `copy_pre_runtime` copies every top-level entry of the
runtime directory into the payload tree (the binary, and the support
directory when present among the entries) and fails with a build error
exactly when the runtime binary is missing or is not a file; it performs
no check that the support directory is present. -/
theorem copy_pre_runtime_error_iff (ex isf : Bool) (p : String)
    (entries : List (String × RtEntry)) (fs : FS) :
    ((copy_pre_runtime ex isf p entries fs).isOk = true ↔ (ex && isf) = true) ∧
    ((ex && isf) = false →
      copy_pre_runtime ex isf p entries fs = Except.error ("prefix.exe not found: " ++ p)) ∧
    ((ex && isf) = true →
      copy_pre_runtime ex isf p entries fs = Except.ok (copyRuntimeEntries entries fs)) := by
  unfold copy_pre_runtime
  cases hx : (ex && isf) <;> simp [hx, Except.isOk, Except.toBool]

/-- C4 witness: with the binary absent (`exists` false) the function
fails with the build error naming the binary path. -/
theorem copy_pre_runtime_error_iff_witness :
    copy_pre_runtime false true "C:\\pre\\prefix.exe" [] [] =
      Except.error ("prefix.exe not found: " ++ "C:\\pre\\prefix.exe") :=
  (copy_pre_runtime_error_iff false true "C:\\pre\\prefix.exe" [] []).2.1 rfl

/-- C9: after a successful `copy_pre_runtime`, top-level entries named
`.git` or `.gitignore` are never present in the payload tree, while every
other top-level file or directory of the runtime source directory is
copied in under its own name. -/
theorem runtime_skips_git (p : String) (entries : List (String × RtEntry))
    (hnd : (entries.map Prod.fst).Nodup) :
    ∃ fsr, copy_pre_runtime true true p entries [] = Except.ok fsr ∧
      fsGet fsr [".git"] = none ∧
      fsGet fsr [".gitignore"] = none ∧
      ∀ n e, (n, e) ∈ entries → ¬(n = ".git" ∨ n = ".gitignore") →
        fsGet fsr [n] = some (topEntry e) := by
  refine ⟨copyRuntimeEntries entries [], rfl, ?_, ?_, ?_⟩
  · rw [copyRuntimeEntries_get_skipname entries [] ".git" (Or.inl rfl)]
    rfl
  · rw [copyRuntimeEntries_get_skipname entries [] ".gitignore" (Or.inr rfl)]
    rfl
  · intro n e hmem hn
    exact copyRuntimeEntries_get_mem entries [] n e hmem hnd hn

/-- C9 witness: a concrete runtime listing holding `.git`, `.gitignore`,
the binary and the support directory. -/
theorem runtime_skips_git_witness :
    ∃ fsr, copy_pre_runtime true true "C:\\pre\\prefix.exe"
        [(".git", RtEntry.dir [(["config"], [3])]), (".gitignore", RtEntry.file [4]),
         ("lib", RtEntry.dir [(["m.p"], [5])]), ("prefix.exe", RtEntry.file [9])] [] =
        Except.ok fsr ∧
      fsGet fsr [".git"] = none ∧
      fsGet fsr [".gitignore"] = none ∧
      ∀ n e, (n, e) ∈ ([(".git", RtEntry.dir [(["config"], [3])]), (".gitignore", RtEntry.file [4]),
         ("lib", RtEntry.dir [(["m.p"], [5])]), ("prefix.exe", RtEntry.file [9])] :
          List (String × RtEntry)) → ¬(n = ".git" ∨ n = ".gitignore") →
        fsGet fsr [n] = some (topEntry e) :=
  runtime_skips_git "C:\\pre\\prefix.exe"
    [(".git", RtEntry.dir [(["config"], [3])]), (".gitignore", RtEntry.file [4]),
     ("lib", RtEntry.dir [(["m.p"], [5])]), ("prefix.exe", RtEntry.file [9])] (by decide)

/-! ## Claim C6: archive member set -/

/-- C6: the archive member list is exactly the regular files of the
payload tree at call time — directories contribute no entry, no file is
omitted and none is added — and each member is stored under its
tree-relative, forward-slash separated name with its contents. -/
theorem build_payload_zip_members (fs : FS) :
    build_payload_zip fs =
      (fs.filter (fun kv => isFileE kv.2)).map (fun kv => (renderSlash kv.1, kv.2)) ∧
    ∀ m, m ∈ build_payload_zip fs ↔
      ∃ p e, (p, e) ∈ fs ∧ isFileE e = true ∧ m = (renderSlash p, e) := by
  constructor
  · induction fs with
    | nil => rfl
    | cons kv rest ih =>
        by_cases h : isFileE kv.2 <;>
          simp [build_payload_zip, List.filterMap_cons, List.filter_cons, h] at ih ⊢ <;>
          exact ih
  · intro m
    rw [build_payload_zip, List.mem_filterMap]
    constructor
    · rintro ⟨kv, hmem, hf⟩
      by_cases h : isFileE kv.2
      · rw [if_pos h] at hf
        exact ⟨kv.1, kv.2, hmem, h, (Option.some.inj hf).symm⟩
      · rw [if_neg h] at hf
        cases hf
    · rintro ⟨p, e, hmem, hfe, rfl⟩
      exact ⟨(p, e), hmem, by rw [if_pos hfe]⟩

/-! ## Claim C7: folder merge, last write wins -/

lemma copytree_get_mem (files : List (List String × List Nat)) (t : List String) (fs : FS)
    (rel : List String) (c : List Nat) (hmem : (rel, c) ∈ files)
    (hnd : (files.map Prod.fst).Nodup) :
    fsGet (copytree files t fs) (t ++ rel) = some (Entry.file c) := by
  obtain ⟨L1, L2, hsplit⟩ := List.append_of_mem hmem
  subst hsplit
  have hrelL2 : rel ∉ L2.map Prod.fst := by
    have h1 : ((rel, c) :: L2).map Prod.fst = rel :: L2.map Prod.fst := by simp
    have h2 := (List.Nodup.of_append_right (by simpa [List.map_append] using hnd) :
      (((rel, c) :: L2).map Prod.fst).Nodup)
    rw [h1, List.nodup_cons] at h2
    exact h2.1
  have h2 : ∀ y ∈ L2, (fun kv => t ++ kv.1) y ≠ (fun kv => t ++ kv.1) ((rel, c)) := by
    intro y hy hh
    have hyr : y.1 = rel := by
      have := hh
      simpa using List.append_cancel_left this
    exact hrelL2 (hyr ▸ List.mem_map_of_mem Prod.fst hy)
  have hlast := fsGet_foldl_fsWrite_last L1 L2 (rel, c) (fun kv => t ++ kv.1)
    (fun kv => Entry.file kv.2) (fsWrite fs t Entry.dir) h2
  simpa [copytree] using hlast

lemma copytree_get_notmem (files : List (List String × List Nat)) (t : List String) (fs : FS)
    (relA : List String) (hno : relA ∉ files.map Prod.fst) (hrelA : relA ≠ []) :
    fsGet (copytree files t fs) (t ++ relA) = fsGet fs (t ++ relA) := by
  rw [copytree, fsGet_foldl_fsWrite_ne files (fun kv => t ++ kv.1) (fun kv => Entry.file kv.2)
    _ _ ?hkeys]
  case hkeys =>
    intro y hy hh
    have hyr : y.1 = relA := List.append_cancel_left hh
    exact hno (hyr ▸ List.mem_map_of_mem Prod.fst hy)
  rw [fsGet_fsWrite, if_neg ?hne]
  case hne =>
    intro hh
    apply hrelA
    have : t ++ relA = t ++ [] := by simpa using hh
    exact List.append_cancel_left this

lemma copy_include_folders_cons_ok (env : String → SrcInfo) (root : WPath) (raw : String)
    (rest : List String) (fs : FS) (s : SrcInfo) (d : String) (t : List String)
    (hp : parse_mapping env raw = Except.ok (s, d)) (hd : s.isDir = true)
    (hr : relative_to (folder_target root s.name d) root = some t) :
    copy_include_folders env root (raw :: rest) fs =
      copy_include_folders env root rest (copytree s.dirFiles t fs) := by
  simp only [copy_include_folders, List.foldlM_cons, hp, hd, if_true, hr]
  rfl

/-- Concrete surroundings for C7: two source folders both mapped to the
same destination, sharing the relative file `f.txt`. -/
def infoA : SrcInfo :=
  ⟨"C:\\A", "A", true, false, true, [], [(["f.txt"], [1]), (["only.txt"], [7])]⟩

def infoB : SrcInfo :=
  ⟨"C:\\B", "B", true, false, true, [], [(["f.txt"], [2])]⟩

def envW7 : String → SrcInfo :=
  fun r =>
    if r = "A" then infoA
    else if r = "B" then infoB
    else ⟨r, "", false, false, false, [], []⟩

/-- The payload root of the C7 scenarios, `C:\Temp\payload`. -/
def rootW : WPath := ⟨"C:", true, ["Temp", "payload"]⟩

/-- C7 counterexample: two folders both mapped to the same rooted
destination `\assets` do not merge — the first mapping already dies with
the uncaught `ValueError` that the line-155 log f-string raises through
`target_dir.relative_to(payload_root)`, before `copytree` runs, so
`copy_include_folders` fails rather than merging. -/
theorem folder_merge_crash_cex :
    copy_include_folders envW7 rootW ["A;\\assets", "B;\\assets"] [] =
      Except.error BErr.uncaught := rfl

/-- C7 amended: when two included folders map to the same destination
path and that destination resolves inside the payload tree (the line-155
`relative_to` succeeds, as it does for every relative, drive-less
destination), `copy_include_folders` merges them rather than failing: the
fold succeeds, every relative path present in both folders ends up
holding the later-declared folder's bytes, and paths present only in the
first folder keep its bytes. A rooted or drive-qualified destination
instead crashes with an uncaught `ValueError` before any copy (see the
counterexample). -/
theorem folder_merge_last_wins
    (env : String → SrcInfo) (root : WPath) (r1 r2 : String) (fs : FS)
    (s1 s2 : SrcInfo) (d1 d2 : String) (t rel : List String) (ca cb : List Nat)
    (hp1 : parse_mapping env r1 = Except.ok (s1, d1))
    (hp2 : parse_mapping env r2 = Except.ok (s2, d2))
    (hd1 : s1.isDir = true) (hd2 : s2.isDir = true)
    (hr1 : relative_to (folder_target root s1.name d1) root = some t)
    (hr2 : relative_to (folder_target root s2.name d2) root = some t)
    (hnd1 : (s1.dirFiles.map Prod.fst).Nodup) (hnd2 : (s2.dirFiles.map Prod.fst).Nodup)
    (hca : (rel, ca) ∈ s1.dirFiles) (hcb : (rel, cb) ∈ s2.dirFiles) (hrel : rel ≠ []) :
    ∃ res, copy_include_folders env root [r1, r2] fs = Except.ok res ∧
      fsGet res (t ++ rel) = some (Entry.file cb) ∧
      ∀ relA cA, (relA, cA) ∈ s1.dirFiles → relA ∉ s2.dirFiles.map Prod.fst → relA ≠ [] →
        fsGet res (t ++ relA) = some (Entry.file cA) := by
  rw [copy_include_folders_cons_ok env root r1 [r2] fs s1 d1 t hp1 hd1 hr1,
    copy_include_folders_cons_ok env root r2 [] _ s2 d2 t hp2 hd2 hr2]
  refine ⟨_, rfl, ?_, ?_⟩
  · exact copytree_get_mem s2.dirFiles t _ rel cb hcb hnd2
  · intro relA cA hmemA hnoB hrelA
    rw [copytree_get_notmem s2.dirFiles t _ relA hnoB hrelA]
    exact copytree_get_mem s1.dirFiles t fs relA cA hmemA hnd1

/-- C7 witness: with the relative destination `assets`, merging the two
concrete folders leaves the second folder's bytes at `assets\f.txt` and
the first folder's bytes at paths only it holds. -/
theorem folder_merge_last_wins_witness :
    ∃ res, copy_include_folders envW7 rootW ["A;assets", "B;assets"] [] = Except.ok res ∧
      fsGet res (["assets"] ++ ["f.txt"]) = some (Entry.file [2]) ∧
      ∀ relA cA, (relA, cA) ∈ infoA.dirFiles → relA ∉ infoB.dirFiles.map Prod.fst →
        relA ≠ [] → fsGet res (["assets"] ++ relA) = some (Entry.file cA) :=
  folder_merge_last_wins envW7 rootW "A;assets" "B;assets" [] infoA infoB "assets" "assets"
    ["assets"] ["f.txt"] [1] [2] rfl rfl rfl rfl rfl rfl
    (by decide) (by decide) (by decide) (by decide) (by decide)

/-! ## Claim C8: bad build inputs abort with a build error -/

lemma foldlM_excepts_error {ε α β : Type} (f : β → α → Except ε β) (L : List α) (x : α)
    (hx : x ∈ L) (hf : ∀ b, ∃ e, f b x = Except.error e) (b0 : β) :
    ∃ e, L.foldlM f b0 = Except.error e := by
  induction L generalizing b0 with
  | nil => cases hx
  | cons y rest ih =>
      rw [List.foldlM_cons]
      cases hy : f b0 y with
      | error e => exact ⟨e, rfl⟩
      | ok b1 =>
          rcases List.mem_cons.mp hx with rfl | hmem
          · obtain ⟨e, he⟩ := hf b0
            rw [he] at hy
            cases hy
          · obtain ⟨e, he⟩ := ih hmem b1
            exact ⟨e, he⟩

lemma foldlM_safe_err {α β : Type} (f : β → α → Except BErr β) (L : List α) (b0 : β) (b : BErr)
    (hsafe : ∀ x ∈ L, ∀ acc e, f acc x = Except.error e → ∃ m, e = BErr.buildError m)
    (h : L.foldlM f b0 = Except.error b) : ∃ m, b = BErr.buildError m := by
  induction L generalizing b0 with
  | nil => exact Except.noConfusion h
  | cons y rest ih =>
      rw [List.foldlM_cons] at h
      cases hy : f b0 y with
      | error e =>
          rw [hy] at h
          have h2 : (Except.error e : Except BErr β) = Except.error b := h
          have h3 : e = b := Except.error.inj h2
          exact h3 ▸ hsafe y (List.mem_cons_self y rest) b0 e hy
      | ok b1 =>
          rw [hy] at h
          exact ih b1 (fun x hx => hsafe x (List.mem_cons_of_mem y hx)) h

lemma copy_includes_bad (env : String → SrcInfo) (root : WPath) (includes : List String)
    (raw : String) (hmem : raw ∈ includes)
    (hbad : (∃ e, parse_mapping env raw = Except.error e) ∨
            (∃ s d, parse_mapping env raw = Except.ok (s, d) ∧ s.isFile = false))
    (fs : FS) :
    ∃ e, copy_includes env root includes fs = Except.error e := by
  unfold copy_includes
  refine foldlM_excepts_error _ includes raw hmem ?_ fs
  intro b
  rcases hbad with ⟨e, he⟩ | ⟨s, d, hok, hnf⟩
  · refine ⟨BErr.buildError e, ?_⟩
    simp only [he]
  · refine ⟨BErr.buildError ("Included file is not a file: " ++ s.resolved), ?_⟩
    simp only [hok]
    simp [hnf]

lemma copy_include_folders_bad (env : String → SrcInfo) (root : WPath) (folders : List String)
    (raw : String) (hmem : raw ∈ folders)
    (hbad : (∃ e, parse_mapping env raw = Except.error e) ∨
            (∃ s d, parse_mapping env raw = Except.ok (s, d) ∧ s.isDir = false))
    (fs : FS) :
    ∃ e, copy_include_folders env root folders fs = Except.error e := by
  unfold copy_include_folders
  refine foldlM_excepts_error _ folders raw hmem ?_ fs
  intro b
  rcases hbad with ⟨e, he⟩ | ⟨s, d, hok, hnd⟩
  · refine ⟨BErr.buildError e, ?_⟩
    simp only [he]
  · refine ⟨BErr.buildError ("Included folder is not a directory: " ++ s.resolved), ?_⟩
    simp only [hok]
    simp [hnd]

/-- A file mapping whose processing by `copy_includes` cannot hit the
uncaught `ValueError` of the line-140 log: either it fails earlier
through the `BuildError` channel, or its target stays inside the payload
root — as it does for every relative, drive-less destination. -/
def includeStepSafe (env : String → SrcInfo) (root : WPath) (raw : String) : Bool :=
  match parse_mapping env raw with
  | Except.error _ => true
  | Except.ok sd =>
      !sd.1.isFile || (relative_to (include_target root sd.2 sd.1.name) root).isSome

/-- A folder mapping whose processing by `copy_include_folders` cannot
hit the uncaught `ValueError` of the line-155 log. -/
def folderStepSafe (env : String → SrcInfo) (root : WPath) (raw : String) : Bool :=
  match parse_mapping env raw with
  | Except.error _ => true
  | Except.ok sd =>
      !sd.1.isDir || (relative_to (folder_target root sd.1.name sd.2) root).isSome

lemma copy_includes_err_build (env : String → SrcInfo) (root : WPath) (L : List String)
    (fs : FS) (b : BErr)
    (hsafe : ∀ r ∈ L, includeStepSafe env root r = true)
    (h : copy_includes env root L fs = Except.error b) :
    ∃ m, b = BErr.buildError m := by
  unfold copy_includes at h
  refine foldlM_safe_err _ L fs b ?_ h
  intro x hx acc e hstep
  have hs := hsafe x hx
  cases hp : parse_mapping env x with
  | error msg =>
      simp only [hp] at hstep
      exact ⟨msg, (Except.error.inj hstep).symm⟩
  | ok sd =>
      simp only [includeStepSafe, hp] at hs
      simp only [hp] at hstep
      by_cases hf : sd.1.isFile = true
      · simp only [hf, if_true] at hstep
        simp only [hf, Bool.not_true, Bool.false_or] at hs
        cases hr : relative_to (include_target root sd.2 sd.1.name) root with
        | none =>
            rw [hr] at hs
            exact Bool.noConfusion hs
        | some rel =>
            rw [hr] at hstep
            exact Except.noConfusion hstep
      · simp only [if_neg hf] at hstep
        exact ⟨_, (Except.error.inj hstep).symm⟩

lemma copy_include_folders_err_build (env : String → SrcInfo) (root : WPath) (L : List String)
    (fs : FS) (b : BErr)
    (hsafe : ∀ r ∈ L, folderStepSafe env root r = true)
    (h : copy_include_folders env root L fs = Except.error b) :
    ∃ m, b = BErr.buildError m := by
  unfold copy_include_folders at h
  refine foldlM_safe_err _ L fs b ?_ h
  intro x hx acc e hstep
  have hs := hsafe x hx
  cases hp : parse_mapping env x with
  | error msg =>
      simp only [hp] at hstep
      exact ⟨msg, (Except.error.inj hstep).symm⟩
  | ok sd =>
      simp only [folderStepSafe, hp] at hs
      simp only [hp] at hstep
      by_cases hf : sd.1.isDir = true
      · simp only [hf, if_true] at hstep
        simp only [hf, Bool.not_true, Bool.false_or] at hs
        cases hr : relative_to (folder_target root sd.1.name sd.2) root with
        | none =>
            rw [hr] at hs
            exact Bool.noConfusion hs
        | some rel =>
            rw [hr] at hstep
            exact Except.noConfusion hstep
      · simp only [if_neg hf] at hstep
        exact ⟨_, (Except.error.inj hstep).symm⟩

lemma copy_main_fs_ok (root : WPath) (n : String) (c : List Nat) (d : String) (fs : FS)
    (rel : List String) (h : relative_to (copy_main_target root d n) root = some rel) :
    copy_main_fs root n c d fs = Except.ok (fsWrite fs rel (Entry.file c), renderRel rel) := by
  unfold copy_main_fs
  rw [h]

lemma build_error_of_stage (env : Env) (args : BuildArgs) (rel : List String)
    (hrel : relative_to (copy_main_target env.payloadRoot args.mainDest env.mainName)
      env.payloadRoot = some rel)
    (hsafeI : ∀ r ∈ args.includes, includeStepSafe env.srcInfo env.payloadRoot r = true)
    (hsafeF : ∀ r ∈ args.includeFolders, folderStepSafe env.srcInfo env.payloadRoot r = true)
    (hstage : (∀ fs, ∃ e, copy_includes env.srcInfo env.payloadRoot args.includes fs =
                Except.error e) ∨
              (∀ fs, ∃ e, copy_include_folders env.srcInfo env.payloadRoot
                args.includeFolders fs = Except.error e)) :
    ∃ m, build env args = Except.error (BErr.buildError m) := by
  cases hw : env.isWindows with
  | false => exact ⟨"This builder only supports Windows 10+.", by simp [build, hw]⟩
  | true =>
      cases hpre : resolvePreExe env args with
      | error e => exact ⟨e, by simp [build, hw, hpre]⟩
      | ok p =>
          cases hmp : env.mainPresent && env.mainIsFile with
          | false =>
              exact ⟨"Main script not found: " ++ env.mainResolved,
                by simp [build, hw, hpre, hmp]⟩
          | true =>
              cases hcp : copy_pre_runtime env.preExePresent env.preExeIsFile
                  env.preExeResolved env.runtimeEntries [] with
              | error e => exact ⟨e, by simp [build, hw, hpre, hmp, hcp]⟩
              | ok fs1 =>
                  have hcm := copy_main_fs_ok env.payloadRoot env.mainName env.mainContent
                    args.mainDest fs1 rel hrel
                  rcases hstage with hi | hf
                  · obtain ⟨e, he⟩ := hi (apply_pointer env.pointer
                      (fsWrite fs1 rel (Entry.file env.mainContent)))
                    obtain ⟨m, hm2⟩ := copy_includes_err_build env.srcInfo env.payloadRoot
                      args.includes _ e hsafeI he
                    subst hm2
                    exact ⟨m, by simp [build, buildMain, buildTail, hw, hpre, hmp, hcp, hcm, he]⟩
                  · cases hic : copy_includes env.srcInfo env.payloadRoot args.includes
                        (apply_pointer env.pointer
                          (fsWrite fs1 rel (Entry.file env.mainContent))) with
                    | error e =>
                        obtain ⟨m, hm2⟩ := copy_includes_err_build env.srcInfo env.payloadRoot
                          args.includes _ e hsafeI hic
                        subst hm2
                        exact ⟨m, by simp [build, buildMain, buildTail, hw, hpre, hmp, hcp,
                          hcm, hic]⟩
                    | ok fs4 =>
                        obtain ⟨e, he⟩ := hf fs4
                        obtain ⟨m, hm2⟩ := copy_include_folders_err_build env.srcInfo
                          env.payloadRoot args.includeFolders fs4 e hsafeF he
                        subst hm2
                        exact ⟨m, by simp [build, buildMain, buildTail, buildFolders, hw, hpre,
                          hmp, hcp, hcm, hic, he]⟩

/-- Concrete surroundings for C8: a runnable Windows build whose include
list starts with a well-formed mapping and ends with a malformed one. -/
def envW8 : Env :=
  { isWindows := true
    pathPrefixExe := some "C:\\pre\\prefix.exe"
    preExePresent := true
    preExeIsFile := true
    preExeResolved := "C:\\pre\\prefix.exe"
    runtimeEntries := [("lib", RtEntry.dir [(["m.p"], [5])]), ("prefix.exe", RtEntry.file [9])]
    mainPresent := true
    mainIsFile := true
    mainResolved := "C:\\work\\main.x"
    mainName := "main.x"
    mainContent := [1, 2]
    payloadRoot := ⟨"C:", true, ["Temp", "payload"]⟩
    srcInfo := fun r => ⟨r, "", false, false, false, [], []⟩
    pointer := ⟨false, false, [], false, []⟩
    iconResult := Except.ok ()
    stubResult := Except.ok [77, 90] }

def argsW8 : BuildArgs :=
  { preExe := some "C:\\pre\\prefix.exe", mainFile := "main.x", includes := ["nosemi"],
    includeFolders := [], mainDest := ".", output := none, icon := none }

/-- Surroundings for the C8 counterexample: the first include mapping
`good;\evil` is well formed (an existing file), but its destination is
rooted; the second, `nosemi`, is the malformed mapping of the claim. -/
def envW8c : Env :=
  { envW8 with srcInfo := fun r =>
      if r = "good" then ⟨"C:\\inc\\good.txt", "good.txt", true, true, false, [7], []⟩
      else ⟨r, "", false, false, false, [], []⟩ }

def argsW8c : BuildArgs := { argsW8 with includes := ["good;\\evil", "nosemi"] }

/-- C8 counterexample: the build holds a mapping with no `;` (`nosemi`),
yet no `BuildError` is raised and no `Error:` line is printed — the
earlier well-formed mapping `good;\evil` has a rooted destination, so the
eager `relative_to` in the line-140 log crashes with an uncaught
`ValueError` before the malformed mapping is ever parsed. The process
still exits with status 1 and produces no output file. -/
theorem bad_mapping_crash_cex :
    argsW8c.includes = ["good;\\evil", "nosemi"] ∧
    splitFirstSemi "nosemi".data = none ∧
    build envW8c argsW8c = Except.error BErr.uncaught ∧
    main_entry envW8c argsW8c = (1, none, none) :=
  ⟨rfl, rfl, rfl, rfl⟩

/-- C8 amended: provided the main destination and every mapping
destination keep their targets inside the payload root (as every
relative, drive-less destination does), an include or include-folder
mapping whose string has no `;`, whose source path does not exist, or
whose source has the wrong kind (a non-file declared as a file, a
non-directory declared as a folder) makes the build fail with a build
error; the process then exits with status 1 and no output file is
produced (`main_entry` yields no bytes, only the error line). Without
the proviso the build can instead die of an uncaught `ValueError` —
still status 1 and no output, but no `Error:` line (see the
counterexample). The last two conjuncts pin the error messages of
`parse_mapping`: they name the offending mapping text, and the resolved
source path, respectively. -/
theorem bad_mapping_aborts (env : Env) (args : BuildArgs) (raw : String) (rel : List String)
    (hrel : relative_to (copy_main_target env.payloadRoot args.mainDest env.mainName)
      env.payloadRoot = some rel)
    (hsafeI : ∀ r ∈ args.includes, includeStepSafe env.srcInfo env.payloadRoot r = true)
    (hsafeF : ∀ r ∈ args.includeFolders, folderStepSafe env.srcInfo env.payloadRoot r = true)
    (hbad :
      (raw ∈ args.includes ∧
        ((∃ e, parse_mapping env.srcInfo raw = Except.error e) ∨
         (∃ s d, parse_mapping env.srcInfo raw = Except.ok (s, d) ∧ s.isFile = false))) ∨
      (raw ∈ args.includeFolders ∧
        ((∃ e, parse_mapping env.srcInfo raw = Except.error e) ∨
         (∃ s d, parse_mapping env.srcInfo raw = Except.ok (s, d) ∧ s.isDir = false)))) :
    (∃ e, build env args = Except.error (BErr.buildError e) ∧
      main_entry env args = (1, none, some ("Error: " ++ e))) ∧
    (splitFirstSemi raw.data = none →
      parse_mapping env.srcInfo raw =
        Except.error ("Mapping must be of form source;dest_in_exe: " ++ raw)) ∧
    (∀ pr, splitFirstSemi raw.data = some pr →
      (env.srcInfo (String.mk pr.1)).present = false →
      parse_mapping env.srcInfo raw =
        Except.error ("Included path does not exist: " ++
          (env.srcInfo (String.mk pr.1)).resolved)) := by
  refine ⟨?_, ?_, ?_⟩
  · have hstage : (∀ fs, ∃ e, copy_includes env.srcInfo env.payloadRoot args.includes fs =
        Except.error e) ∨
        (∀ fs, ∃ e, copy_include_folders env.srcInfo env.payloadRoot args.includeFolders fs =
          Except.error e) := by
      rcases hbad with ⟨hmem, hb⟩ | ⟨hmem, hb⟩
      · exact Or.inl (fun fs =>
          copy_includes_bad env.srcInfo env.payloadRoot args.includes raw hmem hb fs)
      · exact Or.inr (fun fs =>
          copy_include_folders_bad env.srcInfo env.payloadRoot args.includeFolders raw
            hmem hb fs)
    obtain ⟨m, hm2⟩ := build_error_of_stage env args rel hrel hsafeI hsafeF hstage
    exact ⟨m, hm2, by simp [main_entry, hm2]⟩
  · intro hs
    simp [parse_mapping, hs]
  · intro pr hs hp
    simp [parse_mapping, hs, hp]

/-- C8 witness: an include mapping with no `;` aborts the concrete build
(whose other destinations are all relative) with exit status 1 and no
output bytes. -/
theorem bad_mapping_aborts_witness :
    ∃ e, build envW8 argsW8 = Except.error (BErr.buildError e) ∧
      main_entry envW8 argsW8 = (1, none, some ("Error: " ++ e)) :=
  (bad_mapping_aborts envW8 argsW8 "nosemi" ["main.x"] (by decide) (by decide) (by decide)
    (Or.inl ⟨by decide, Or.inl ⟨"Mapping must be of form source;dest_in_exe: " ++ "nosemi",
      rfl⟩⟩)).1

/-! ## Claim C10: the `.prex` pointer file is best effort -/

lemma copy_includes_isOk_indep (env : String → SrcInfo) (root : WPath) (L : List String)
    (fs fs' : FS) :
    (copy_includes env root L fs).isOk = (copy_includes env root L fs').isOk := by
  induction L generalizing fs fs' with
  | nil => rfl
  | cons raw rest ih =>
      unfold copy_includes
      rw [List.foldlM_cons, List.foldlM_cons]
      cases hp : parse_mapping env raw with
      | error e => simp only [hp]
      | ok sd =>
          simp only [hp]
          by_cases hf : sd.1.isFile = true
          · simp only [hf, if_true]
            cases hr : relative_to (include_target root sd.2 sd.1.name) root with
            | none => simp only [hr]
            | some rel =>
                simp only [hr]
                exact ih _ _
          · simp only [if_neg hf]

lemma copy_include_folders_isOk_indep (env : String → SrcInfo) (root : WPath)
    (L : List String) (fs fs' : FS) :
    (copy_include_folders env root L fs).isOk =
      (copy_include_folders env root L fs').isOk := by
  induction L generalizing fs fs' with
  | nil => rfl
  | cons raw rest ih =>
      unfold copy_include_folders
      rw [List.foldlM_cons, List.foldlM_cons]
      cases hp : parse_mapping env raw with
      | error e => simp only [hp]
      | ok sd =>
          simp only [hp]
          by_cases hf : sd.1.isDir = true
          · simp only [hf, if_true]
            cases hr : relative_to (folder_target root sd.1.name sd.2) root with
            | none => simp only [hr]
            | some rel =>
                simp only [hr]
                exact ih _ _
          · simp only [if_neg hf]

lemma buildTail_err (env : Env) (args : BuildArgs) (fs : FS) (m : String) (e : BErr)
    (h : copy_includes env.srcInfo env.payloadRoot args.includes fs = Except.error e) :
    buildTail env args fs m = Except.error e := by
  unfold buildTail
  rw [h]

lemma buildTail_ok (env : Env) (args : BuildArgs) (fs fs4 : FS) (m : String)
    (h : copy_includes env.srcInfo env.payloadRoot args.includes fs = Except.ok fs4) :
    buildTail env args fs m = buildFolders env args fs4 m := by
  unfold buildTail
  rw [h]

lemma buildFolders_err (env : Env) (args : BuildArgs) (fs4 : FS) (m : String) (e : BErr)
    (h : copy_include_folders env.srcInfo env.payloadRoot args.includeFolders fs4 =
      Except.error e) :
    buildFolders env args fs4 m = Except.error e := by
  unfold buildFolders
  rw [h]

lemma buildFolders_ok (env : Env) (args : BuildArgs) (fs4 fs5 : FS) (m : String)
    (h : copy_include_folders env.srcInfo env.payloadRoot args.includeFolders fs4 =
      Except.ok fs5) :
    buildFolders env args fs4 m = buildFinal env args fs5 m := by
  unfold buildFolders
  rw [h]

lemma buildFinal_isOk_indep (env : Env) (args : BuildArgs) (fs fs' : FS) (m m' : String) :
    (buildFinal env args fs m).isOk = (buildFinal env args fs' m').isOk := by
  unfold buildFinal
  cases hi : (match args.icon with
              | none => Except.ok ()
              | some _ => env.iconResult) with
  | error e => rfl
  | ok u =>
      cases hs : env.stubResult with
      | error e => rfl
      | ok stub => exact (Eq.refl true)

lemma buildTail_isOk_indep (env : Env) (args : BuildArgs) (fs fs' : FS) (m : String) :
    (buildTail env args fs m).isOk = (buildTail env args fs' m).isOk := by
  have hik := copy_includes_isOk_indep env.srcInfo env.payloadRoot args.includes fs fs'
  cases hic : copy_includes env.srcInfo env.payloadRoot args.includes fs with
  | error e =>
      rw [hic] at hik
      rw [buildTail_err env args fs m e hic]
      cases hic2 : copy_includes env.srcInfo env.payloadRoot args.includes fs' with
      | error e2 =>
          rw [buildTail_err env args fs' m e2 hic2]
          exact (Eq.refl false)
      | ok f2 =>
          rw [hic2] at hik
          cases hik
  | ok fs4 =>
      rw [hic] at hik
      rw [buildTail_ok env args fs fs4 m hic]
      cases hic2 : copy_includes env.srcInfo env.payloadRoot args.includes fs' with
      | error e2 =>
          rw [hic2] at hik
          cases hik
      | ok fs4b =>
          rw [buildTail_ok env args fs' fs4b m hic2]
          have hfk := copy_include_folders_isOk_indep env.srcInfo env.payloadRoot
            args.includeFolders fs4 fs4b
          cases hfc : copy_include_folders env.srcInfo env.payloadRoot
              args.includeFolders fs4 with
          | error e =>
              rw [hfc] at hfk
              rw [buildFolders_err env args fs4 m e hfc]
              cases hfc2 : copy_include_folders env.srcInfo env.payloadRoot
                  args.includeFolders fs4b with
              | error e2 =>
                  rw [buildFolders_err env args fs4b m e2 hfc2]
                  exact (Eq.refl false)
              | ok f2 =>
                  rw [hfc2] at hfk
                  cases hfk
          | ok fs5 =>
              rw [hfc] at hfk
              rw [buildFolders_ok env args fs4 fs5 m hfc]
              cases hfc2 : copy_include_folders env.srcInfo env.payloadRoot
                  args.includeFolders fs4b with
              | error e2 =>
                  rw [hfc2] at hfk
                  cases hfk
              | ok fs5b =>
                  rw [buildFolders_ok env args fs4b fs5b m hfc2]
                  exact buildFinal_isOk_indep env args fs5 fs5b m m

lemma buildMain_isOk_pointer (env : Env) (args : BuildArgs) (fs1 : FS) (pe : PointerEnv) :
    (buildMain env args fs1).isOk =
      (match copy_main_fs env.payloadRoot env.mainName env.mainContent args.mainDest fs1 with
       | Except.error b => Except.error b
       | Except.ok fsMain =>
           buildTail env args (apply_pointer pe fsMain.1) fsMain.2).isOk := by
  unfold buildMain
  cases hcm : copy_main_fs env.payloadRoot env.mainName env.mainContent args.mainDest fs1 with
  | error b => rfl
  | ok fsMain => exact buildTail_isOk_indep env args _ _ _

lemma build_pointer_unfold (env : Env) (args : BuildArgs) (pe : PointerEnv) :
    build { env with pointer := pe } args =
      (if !env.isWindows then
        Except.error (BErr.buildError "This builder only supports Windows 10+.")
       else
        match resolvePreExe env args with
        | Except.error e => Except.error (BErr.buildError e)
        | Except.ok _ =>
          if !(env.mainPresent && env.mainIsFile) then
            Except.error (BErr.buildError ("Main script not found: " ++ env.mainResolved))
          else
            match copy_pre_runtime env.preExePresent env.preExeIsFile env.preExeResolved
                env.runtimeEntries [] with
            | Except.error e => Except.error (BErr.buildError e)
            | Except.ok fs1 =>
                match copy_main_fs env.payloadRoot env.mainName env.mainContent
                    args.mainDest fs1 with
                | Except.error b => Except.error b
                | Except.ok fsMain =>
                    buildTail env args (apply_pointer pe fsMain.1) fsMain.2) := rfl

lemma build_isOk_pointer_indep (env : Env) (args : BuildArgs) (pe : PointerEnv) :
    (build env args).isOk = (build { env with pointer := pe } args).isOk := by
  rw [build_pointer_unfold env args pe]
  unfold build
  cases hw : env.isWindows with
  | false => simp [hw]
  | true =>
      simp only [hw, Bool.not_true, Bool.false_eq_true, if_false]
      cases hpre : resolvePreExe env args with
      | error e => rfl
      | ok p =>
          cases hm : env.mainPresent && env.mainIsFile with
          | false => simp [hm]
          | true =>
              simp only [hm, Bool.not_true, Bool.false_eq_true, if_false]
              cases hcp : copy_pre_runtime env.preExePresent env.preExeIsFile
                  env.preExeResolved env.runtimeEntries [] with
              | error e => rfl
              | ok fs1 =>
                  exact buildMain_isOk_pointer env args fs1 pe

/-- C10: the `.prex` pointer step is best effort. An `OSError` during the
copy or generation is swallowed and leaves the payload tree unchanged;
in every case the step touches no path other than `.prex` at the bundle
root; the written content comes, in order of preference, from the
`.prex` next to the main script, from the script's own `.prex` sibling,
or is generated from the `.py` files under the bundled `ext/` directory
(and nothing is written when there are none); and the outcome of the
whole build does not depend on the pointer surroundings. -/
theorem pointer_best_effort (pe : PointerEnv) (fs : FS) (env : Env) (args : BuildArgs) :
    (pe.osFailure = true → apply_pointer pe fs = fs) ∧
    (∀ q, q ≠ [".prex"] → fsGet (apply_pointer pe fs) q = fsGet fs q) ∧
    (pe.osFailure = false → pe.dirPrexPresent = true →
      apply_pointer pe fs = fsWrite fs [".prex"] (Entry.file pe.dirPrexContent)) ∧
    (pe.osFailure = false → pe.dirPrexPresent = false → pe.progPrexPresent = true →
      apply_pointer pe fs = fsWrite fs [".prex"] (Entry.file pe.progPrexContent)) ∧
    (pe.osFailure = false → pe.dirPrexPresent = false → pe.progPrexPresent = false →
      extPyFiles fs = [] → apply_pointer pe fs = fs) ∧
    (pe.osFailure = false → pe.dirPrexPresent = false → pe.progPrexPresent = false →
      extPyFiles fs ≠ [] →
      apply_pointer pe fs = fsWrite fs [".prex"] (Entry.text (prexText (extPyFiles fs)))) ∧
    (build env args).isOk = (build { env with pointer := pe } args).isOk := by
  refine ⟨?_, ?_, ?_, ?_, ?_, ?_, build_isOk_pointer_indep env args pe⟩
  · intro h
    simp [apply_pointer, pointer_step, h]
  · intro q hq
    by_cases h1 : pe.osFailure
    · simp [apply_pointer, pointer_step, h1]
    · by_cases h2 : pe.dirPrexPresent
      · simp [apply_pointer, pointer_step, h1, h2, fsGet_fsWrite, hq]
      · by_cases h3 : pe.progPrexPresent
        · simp [apply_pointer, pointer_step, h1, h2, h3, fsGet_fsWrite, hq]
        · cases hE : extPyFiles fs with
          | nil => simp [apply_pointer, pointer_step, h1, h2, h3, hE]
          | cons a l => simp [apply_pointer, pointer_step, h1, h2, h3, hE, fsGet_fsWrite, hq]
  · intro h1 h2
    simp [apply_pointer, pointer_step, h1, h2]
  · intro h1 h2 h3
    simp [apply_pointer, pointer_step, h1, h2, h3]
  · intro h1 h2 h3 hE
    simp [apply_pointer, pointer_step, h1, h2, h3, hE]
  · intro h1 h2 h3 hE
    cases hE2 : extPyFiles fs with
    | nil => exact absurd hE2 hE
    | cons a l => simp [apply_pointer, pointer_step, h1, h2, h3, hE2]

/-- C10 witness: with an `OSError` flagged, the pointer step leaves a
concrete payload tree unchanged, and the pointer surroundings do not
change the concrete build outcome. -/
theorem pointer_best_effort_witness :
    apply_pointer ⟨true, true, [3], false, []⟩ [(["a"], Entry.file [1])] =
      [(["a"], Entry.file [1])] ∧
    (build envW8 argsW8).isOk =
      (build { envW8 with pointer := ⟨true, true, [3], false, []⟩ } argsW8).isOk :=
  ⟨(pointer_best_effort ⟨true, true, [3], false, []⟩ [(["a"], Entry.file [1])]
      envW8 argsW8).1 rfl,
   (pointer_best_effort ⟨true, true, [3], false, []⟩ [(["a"], Entry.file [1])]
      envW8 argsW8).2.2.2.2.2.2⟩

end Freezer
